import Mathlib

/-!
Verification of the time-series statistical analysis engine of
`src/prediction/data_analyzer.py` (the CORE of the specification).

Numeric model: Python floats and JSON numbers are idealized as exact
rationals (`ℚ`).  The two places where the source takes a square root
(`statistics.stdev`, `numpy.std`) are idealized as `Real.sqrt` over the
exact value, so those definitions live in `ℝ` and are noncomputable;
everything else is executable.

Fallible code is modelled with `Option`: `statistics.stdev` raises
`StatisticsError` on fewer than two data points, which we model as `none`,
and `calculate_volatility` / `analyze_climate_data` propagate that `none`.
-/

namespace ClimateAnalyzer

/-- A JSON scalar as it can appear in the `date` / `value` fields of a
record after `json.load`: a string, an integer, or a (decimal) number.
JSON `null` and an absent key both become Python `None`, which we model
uniformly as `Option.none` at the field level. -/
inductive JVal : Type
  | jstr (s : String)
  | jint (n : ℤ)
  | jnum (q : ℚ)
deriving DecidableEq

/-- One element of `data['data']['data']` as read by `extract_time_series`:
`country` is the result of `record.get('country', {}).get('value')`,
`date` of `record.get('date')` and `value` of `record.get('value')`. -/
structure DataRecord : Type where
  country : Option String
  date : Option JVal
  value : Option JVal
deriving DecidableEq

/-- The input dataset: `indicator` models `data.get('indicator', 'Unknown')`
(`none` = key absent) and `records` models `data.get('data', {}).get('data', [])`
(an absent nesting yields the empty list). -/
structure IndicatorData : Type where
  indicator : Option String
  records : List DataRecord
deriving DecidableEq

/-- Python truthiness of the `date` field: `None` is handled at the
`Option` level; the empty string, the integer `0` and the number `0`
are falsy, everything else is truthy. -/
def jvalTruthy : JVal → Bool
  | .jstr s => s ≠ ""
  | .jint n => n ≠ 0
  | .jnum q => q ≠ 0

/-- Python `int(x)` on a JSON scalar: integer strings parse, other strings
fail (raise `ValueError`, modelled `none`); integers are identity; numbers
truncate toward zero. -/
def jvalToInt : JVal → Option ℤ
  | .jstr s => s.toInt?
  | .jint n => some n
  | .jnum q => some (q.num.tdiv (q.den : ℤ))

/-- Decimal string parser modelling Python `float(s)` on the string shapes
that occur in indicator data: optional sign, digits, optional fractional
digits.  Non-numeric strings fail (raise `ValueError`, modelled `none`). -/
def parseDecimal (s : String) : Option ℚ :=
  let core : String → Option ℚ := fun t =>
    match t.splitOn "." with
    | [a] => (a.toNat?).map (fun n => (n : ℚ))
    | [a, b] =>
      match a.toNat?, b.toNat? with
      | some n, some m => some ((n : ℚ) + (m : ℚ) / (10 : ℚ) ^ b.length)
      | _, _ => none
    | _ => none
  if s.startsWith "-" then (core (s.drop 1)).map (fun q => -q)
  else if s.startsWith "+" then core (s.drop 1)
  else core s

/-- Python `float(x)` on a JSON scalar (`ValueError` modelled as `none`). -/
def jvalToFloat : JVal → Option ℚ
  | .jstr s => parseDecimal s
  | .jint n => some (n : ℚ)
  | .jnum q => some q

/-- The per-record body of the loop in `extract_time_series`
(src/prediction/data_analyzer.py lines 42-53): the truthiness test
`if country and date and value is not None`, the filter test
`if country_filter is None or country == country_filter`, and the
`try: int(date); float(value) except: continue` conversion.  Returns the
`(country, (year, value))` contribution of the record, or `none` if the
record is skipped. -/
def processRecord (countryFilter : Option String) (r : DataRecord) :
    Option (String × ℤ × ℚ) :=
  match r.country, r.date, r.value with
  | some c, some d, some v =>
    if c ≠ "" ∧ jvalTruthy d then
      if countryFilter = none ∨ countryFilter = some c then
        match jvalToInt d, jvalToFloat v with
        | some y, some q => some (c, (y, q))
        | _, _ => none
      else none
    else none
  | _, _, _ => none

/-- `time_series[country].append(pair)` on a `defaultdict(list)` whose
insertion order we model by an association list: an existing bucket gets
the pair appended, a new country is appended at the end (first-seen
order, as in a Python dict). -/
def bucketInsert (c : String) (p : ℤ × ℚ) :
    List (String × List (ℤ × ℚ)) → List (String × List (ℤ × ℚ))
  | [] => [(c, [p])]
  | (c', l) :: rest =>
    if c' = c then (c', l ++ [p]) :: rest else (c', l) :: bucketInsert c p rest

/-- The collection loop of `extract_time_series`: fold the records in
dataset order, inserting each kept record into its country's bucket. -/
def collectSeries (countryFilter : Option String) (records : List DataRecord) :
    List (String × List (ℤ × ℚ)) :=
  records.foldl
    (fun acc r =>
      match processRecord countryFilter r with
      | some (c, p) => bucketInsert c p acc
      | none => acc)
    []

/-- Stable insertion of `a` into a list sorted ascending by `key`:
`a` goes in front of the first element whose key is ≥ its own. -/
def insertAsc {α : Type} {κ : Type} [LinearOrder κ] (key : α → κ) (a : α) :
    List α → List α
  | [] => [a]
  | b :: l => if key a ≤ key b then a :: b :: l else b :: insertAsc key a l

/-- Stable ascending sort by `key`.  Python's `list.sort(key=...)` is a
stable sort; a stable sort is extensionally unique, so this insertion
sort computes exactly the list Timsort produces.  `list.sort(key=k,
reverse=True)` keeps ties in original order as well and therefore equals
this sort applied to the negated key. -/
def sortOn {α : Type} {κ : Type} [LinearOrder κ] (key : α → κ) :
    List α → List α
  | [] => []
  | a :: l => insertAsc key a (sortOn key l)

/-- `extract_time_series(data, country_filter)`
(src/prediction/data_analyzer.py lines 28-59): collect the usable records
into per-country buckets, then sort every bucket ascending by year
(`time_series[country].sort(key=lambda x: x[0])`, a stable sort). -/
def extract_time_series (data : IndicatorData) (countryFilter : Option String) :
    List (String × List (ℤ × ℚ)) :=
  (collectSeries countryFilter data.records).map
    (fun p => (p.1, sortOn Prod.fst p.2))

/-- `statistics.mean` (exact): sum divided by length.  Only ever applied
to nonempty lists in the source (empty input raises there); on `[]` this
total model returns `0` via rational division by zero. -/
def meanQ (l : List ℚ) : ℚ := l.sum / (l.length : ℚ)

/-- The values `[v for _, v in time_series]` of a series. -/
def valuesOf (ts : List (ℤ × ℚ)) : List ℚ := ts.map Prod.snd

/-- The loop `for i in range(1, len(values)): if values[i-1] != 0: ...`
of `calculate_growth_rate`, walking consecutive value pairs and keeping
the percentage change of each pair with nonzero predecessor. -/
def pctChanges : List ℚ → List ℚ
  | a :: b :: rest =>
    (if a ≠ 0 then [(b - a) / a * 100] else []) ++ pctChanges (b :: rest)
  | _ => []

/-- `calculate_growth_rate(time_series)`
(src/prediction/data_analyzer.py lines 62-85). -/
def calculate_growth_rate (ts : List (ℤ × ℚ)) : ℚ :=
  if ts.length < 2 then 0
  else
    let growthRates := pctChanges (valuesOf ts)
    if growthRates = [] then 0 else meanQ growthRates

/-- `numerator = np.sum((years - mean_x) * (values - mean_y))` of the OLS
fit shared by `detect_trend` and `simple_forecast`; equals the spec's
`Σ(x-x̄)(y-ȳ)`. -/
def slopeNum (ts : List (ℤ × ℚ)) : ℚ :=
  (ts.map (fun p =>
    ((p.1 : ℚ) - meanQ (ts.map (fun q => (q.1 : ℚ)))) *
      (p.2 - meanQ (valuesOf ts)))).sum

/-- `denominator = np.sum((years - mean_x) ** 2)`; equals the spec's
`Σ(x-x̄)²`. -/
def slopeDen (ts : List (ℤ × ℚ)) : ℚ :=
  (ts.map (fun p =>
    ((p.1 : ℚ) - meanQ (ts.map (fun q => (q.1 : ℚ)))) ^ 2)).sum

/-- `np.std(values)`: the population standard deviation
`sqrt(Σ(v-v̄)² / n)`, idealized over the exact rational variance. -/
noncomputable def popStd (values : List ℚ) : ℝ :=
  Real.sqrt ((((values.map (fun v => (v - meanQ values) ^ 2)).sum : ℚ) : ℝ) /
    (values.length : ℝ))

open scoped Classical in
/-- `detect_trend(time_series)`
(src/prediction/data_analyzer.py lines 88-125). -/
noncomputable def detect_trend (ts : List (ℤ × ℚ)) : String :=
  if ts.length < 3 then "insufficient data"
  else if slopeDen ts = 0 then "stable"
  else
    let slope := slopeNum ts / slopeDen ts
    let threshold : ℝ := popStd (valuesOf ts) * 0.01
    if (slope : ℝ) > threshold then "increasing"
    else if (slope : ℝ) < -threshold then "decreasing"
    else "stable"

/-- `statistics.stdev(values)`: the sample standard deviation
`sqrt(Σ(v-v̄)² / (n-1))`.  On fewer than two data points the Python
function raises `StatisticsError`, modelled as `none`. -/
noncomputable def stdevQ (values : List ℚ) : Option ℝ :=
  if values.length < 2 then none
  else
    some (Real.sqrt ((((values.map (fun v => (v - meanQ values) ^ 2)).sum : ℚ) : ℝ) /
      ((values.length : ℝ) - 1)))

/-- `calculate_volatility(time_series)`
(src/prediction/data_analyzer.py lines 128-142).  The only guard is
`if not values or statistics.mean(values) == 0: return 0.0`; a raised
`StatisticsError` from `statistics.stdev` propagates as `none`. -/
noncomputable def calculate_volatility (ts : List (ℤ × ℚ)) : Option ℝ :=
  let values := valuesOf ts
  if values = [] ∨ meanQ values = 0 then some 0
  else
    match stdevQ values with
    | none => none
    | some s => some (s / ((meanQ values : ℚ) : ℝ) * 100)

/-- `years[-1]` of a nonempty series (callers guard `len >= 2`; the
default is never reached there). -/
def lastPeriod (ts : List (ℤ × ℚ)) : ℤ := ((ts.getLast?).map Prod.fst).getD 0

/-- `simple_forecast(time_series, years_ahead)`
(src/prediction/data_analyzer.py lines 145-185): OLS fit, then
`for i in range(1, years_ahead + 1)` produce `(last_year + i,
slope * (last_year + i) + intercept)`. -/
def simple_forecast (ts : List (ℤ × ℚ)) (yearsAhead : ℕ) : List (ℤ × ℚ) :=
  if ts.length < 2 then []
  else if slopeDen ts = 0 then []
  else
    let slope := slopeNum ts / slopeDen ts
    let intercept := meanQ (valuesOf ts) - slope * meanQ (ts.map (fun q => (q.1 : ℚ)))
    (List.range yearsAhead).map
      (fun (i : ℕ) => (lastPeriod ts + (i : ℤ) + 1,
        slope * ((lastPeriod ts + (i : ℤ) + 1 : ℤ) : ℚ) + intercept))

/-- Round-half-to-even to an integer, Python's `round(x)` on an exact
rational. -/
def rheQ (x : ℚ) : ℤ :=
  if x - (⌊x⌋ : ℚ) < 1 / 2 then ⌊x⌋
  else if (1 : ℚ) / 2 < x - (⌊x⌋ : ℚ) then ⌊x⌋ + 1
  else if ⌊x⌋ % 2 = 0 then ⌊x⌋ else ⌊x⌋ + 1

/-- Python `round(x, 2)` on an exact rational. -/
def round2Q (x : ℚ) : ℚ := ((rheQ (x * 100) : ℤ) : ℚ) / 100

open scoped Classical in
/-- Round-half-to-even to an integer over `ℝ` (for the one rounded field
whose exact value involves a square root). -/
noncomputable def rheR (x : ℝ) : ℤ :=
  if x - (⌊x⌋ : ℝ) < 1 / 2 then ⌊x⌋
  else if (1 : ℝ) / 2 < x - (⌊x⌋ : ℝ) then ⌊x⌋ + 1
  else if ⌊x⌋ % 2 = 0 then ⌊x⌋ else ⌊x⌋ + 1

/-- Python `round(x, 2)` over `ℝ`. -/
noncomputable def round2R (x : ℝ) : ℝ := ((rheR (x * 100) : ℤ) : ℝ) / 100

/-- Python `max(l)` for nonempty `l` (the source only calls it guarded by
`if all_latest_values`). -/
def maxList (l : List ℚ) : ℚ :=
  match l with
  | [] => 0
  | a :: t => t.foldl max a

/-- Python `min(l)` for nonempty `l`. -/
def minList (l : List ℚ) : ℚ :=
  match l with
  | [] => 0
  | a :: t => t.foldl min a

/-- `statistics.median(l)`: sort ascending, take the middle element for
odd length, the mean of the two middle elements for even length. -/
def medianQ (l : List ℚ) : ℚ :=
  let s := sortOn (fun x : ℚ => x) l
  if s.length % 2 = 1 then s.getD (s.length / 2) 0
  else (s.getD (s.length / 2 - 1) 0 + s.getD (s.length / 2) 0) / 2

/-- The per-country analysis dictionary built inside
`analyze_climate_data` (src/prediction/data_analyzer.py lines 214-231). -/
structure CountrySummary : Type where
  country : String
  data_points : ℕ
  time_range : String
  latest_value : ℚ
  earliest_value : ℚ
  trend : String
  avg_growth_rate : ℚ
  volatility : ℝ
  forecast_5yr : List (ℤ × ℚ)

/-- Build one `country_analysis` dict.  The fields mirror the source:
`ts[-1]` / `ts[0]` give latest/earliest (year, value), growth rate and
volatility are rounded to two decimals, the forecast horizon is 5.
`calculate_volatility` can raise (`none`), which propagates. -/
noncomputable def buildSummary (c : String) (ts : List (ℤ × ℚ)) :
    Option CountrySummary :=
  (calculate_volatility ts).map (fun vol =>
    { country := c
      data_points := ts.length
      time_range := toString (((ts.headD (0, 0)).1 : ℤ)) ++ "-" ++
        toString (((ts.getLastD (0, 0)).1 : ℤ))
      latest_value := (ts.getLastD (0, 0)).2
      earliest_value := (ts.headD (0, 0)).2
      trend := detect_trend ts
      avg_growth_rate := round2Q (calculate_growth_rate ts)
      volatility := round2R vol
      forecast_5yr := simple_forecast ts 5 })

/-- The `for country_name, ts in time_series_data.items():` loop of
`analyze_climate_data`: entities with fewer than 2 points are skipped
(`continue`), a raised exception in `buildSummary` propagates. -/
noncomputable def collectSummaries :
    List (String × List (ℤ × ℚ)) → Option (List CountrySummary)
  | [] => some []
  | (c, ts) :: rest =>
    if ts.length < 2 then collectSummaries rest
    else
      match buildSummary c ts, collectSummaries rest with
      | some s, some l => some (s :: l)
      | _, _ => none

/-- The `global_summary` dict of the analysis result. -/
structure GlobalSummary : Type where
  max_value : ℚ
  min_value : ℚ
  mean_value : ℚ
  median_value : ℚ
deriving DecidableEq

/-- The result dict of `analyze_climate_data`.  The `filepath` entry is
pure I/O bookkeeping and is not modelled; `country_analyses` is a Python
dict built from summaries with pairwise distinct country keys, modelled
as an insertion-ordered association list. -/
structure AnalysisResult : Type where
  indicator : String
  total_countries : ℕ
  country_analyses : List (String × CountrySummary)
  global_summary : Option GlobalSummary

/-- The ranking key: Python `sort(key=lambda x: abs(x['latest_value']),
reverse=True)` is the stable ascending sort by the negated absolute
latest value. -/
def rankKey (s : CountrySummary) : ℚ := -|s.latest_value|

/-- Python truthiness of the optional `country` argument
(`if country:`): `None` and the empty string are falsy. -/
def pyTruthy : Option String → Bool
  | none => false
  | some s => s ≠ ""

/-- `analyze_climate_data(filepath, country, top_n)`
(src/prediction/data_analyzer.py lines 188-260), modelled on the already
loaded dataset (file loading is I/O, out of the core).  Mirrors the
source: extract, build per-country summaries (skipping series shorter
than 2), sort descending by absolute latest value (stable), select the
filtered country or the first `top_n`, and compute the global summary
over all summaries' latest values (the full sorted list, not the
truncated selection). -/
noncomputable def analyze_climate_data (data : IndicatorData)
    (country : Option String) (topN : ℕ) : Option AnalysisResult :=
  let tsd := extract_time_series data country
  match collectSummaries tsd with
  | none => none
  | some summaries =>
    let sorted := sortOn rankKey summaries
    let analyses :=
      if pyTruthy country then
        (sorted.filter (fun s => country = some s.country)).map
          (fun s => (s.country, s))
      else (sorted.take topN).map (fun s => (s.country, s))
    let allLatest := sorted.map (fun s => s.latest_value)
    some
      { indicator := data.indicator.getD "Unknown"
        total_countries := tsd.length
        country_analyses := analyses
        global_summary :=
          if allLatest = [] then none
          else some
            { max_value := maxList allLatest
              min_value := minList allLatest
              mean_value := round2Q (meanQ allLatest)
              median_value := round2Q (medianQ allLatest) } }

/-! ### Specification-side definitions

These are written from the wording of `spec.md` (§4.2, §4.3, §4.1), to be
compared with the definitions translated from the source. -/

/-- Spec §4.2 `growth_rate`: "Requires ≥2 points else returns `0.0`.  For
each consecutive pair where the predecessor value is nonzero, compute
percentage change `(v[i]-v[i-1])/v[i-1] * 100`; transitions with a zero
predecessor are skipped.  Returns the arithmetic mean of the collected
percentage changes, or `0.0` if no transition was usable." -/
def specGrowthRate (series : List (ℤ × ℚ)) : ℚ :=
  if series.length < 2 then 0
  else
    let v := series.map Prod.snd
    let changes :=
      ((v.zip v.tail).filter (fun p => p.1 ≠ 0)).map
        (fun p => (p.2 - p.1) / p.1 * 100)
    if changes = [] then 0 else meanQ changes

open scoped Classical in
/-- Spec §4.2 `trend`: "Fewer than 3 points → `insufficient data`.
Otherwise fit an OLS line (see 4.3 algorithm) to get `slope`.  If the
period-variance denominator is zero → `stable`.  Threshold =
`population_stdev(values) * 0.01`.  `slope > threshold` → `increasing`;
`slope < -threshold` → `decreasing`; else `stable`."  The OLS slope is
§4.3's `Σ(x-x̄)(y-ȳ) / Σ(x-x̄)²` with `x` the periods and `y` the
values; `popStd` is the glossary's population standard deviation. -/
noncomputable def specTrend (series : List (ℤ × ℚ)) : String :=
  if series.length < 3 then "insufficient data"
  else
    let x := series.map (fun p => (p.1 : ℚ))
    let y := series.map Prod.snd
    let den := (x.map (fun xi => (xi - meanQ x) ^ 2)).sum
    if den = 0 then "stable"
    else
      let num := ((x.zip y).map (fun p => (p.1 - meanQ x) * (p.2 - meanQ y))).sum
      let slope := num / den
      let threshold : ℝ := popStd y * 0.01
      if (slope : ℝ) > threshold then "increasing"
      else if (slope : ℝ) < -threshold then "decreasing"
      else "stable"

/-- The glossary's sample standard deviation `sqrt(Σ(v-v̄)²/(n-1))` as a
total function (meaningful for ≥2 values), used to state what
`calculate_volatility` returns on the non-degenerate branch. -/
noncomputable def sampleStdev (values : List ℚ) : ℝ :=
  Real.sqrt ((((values.map (fun v => (v - meanQ values) ^ 2)).sum : ℚ) : ℝ) /
    ((values.length : ℝ) - 1))

/-- Spec §4.1: group a stream of usable `(entity, (period, value))`
contributions into first-seen-ordered per-entity buckets. -/
def specGroup (l : List (String × ℤ × ℚ)) : List (String × List (ℤ × ℚ)) :=
  l.foldl (fun acc cp => bucketInsert cp.1 cp.2 acc) []

/-- The `latest_value` of every entity with ≥2 data points, in
extraction (first-seen) order — the population over which the spec says
`GlobalSummary` is computed. -/
def latestList (data : IndicatorData) (f : Option String) : List ℚ :=
  (extract_time_series data f).filterMap
    (fun p => if p.2.length < 2 then none else some ((p.2.getLastD (0, 0)).2))

/-- The list of per-country summaries `collectSummaries` produces when no
exception occurs: one summary per entity with ≥2 points, in extraction
order. -/
noncomputable def summariesOf (tsd : List (String × List (ℤ × ℚ))) :
    List CountrySummary :=
  tsd.filterMap (fun p => if p.2.length < 2 then none else buildSummary p.1 p.2)

/-- Concrete dataset for claim C2: entities A, B (latest value 1) and C
(latest value 0), each with two usable records.  The three latest values
have arithmetic mean 2/3, which is not representable after rounding to
two decimals. -/
def cexData : IndicatorData :=
  { indicator := some "CO2"
    records :=
      [ { country := some "A", date := some (.jint 1), value := some (.jint 1) }
      , { country := some "A", date := some (.jint 2), value := some (.jint 1) }
      , { country := some "B", date := some (.jint 1), value := some (.jint 1) }
      , { country := some "B", date := some (.jint 2), value := some (.jint 1) }
      , { country := some "C", date := some (.jint 1), value := some (.jint 0) }
      , { country := some "C", date := some (.jint 2), value := some (.jint 0) } ] }

/-! ### Properties of the stable sort -/

theorem insertAsc_perm {α κ : Type} [LinearOrder κ] (key : α → κ) (a : α) :
    ∀ l : List α, List.Perm (insertAsc key a l) (a :: l)
  | [] => by simp [insertAsc]
  | b :: t => by
    unfold insertAsc
    by_cases h : key a ≤ key b
    · simp [h]
    · simp only [if_neg h]
      exact ((insertAsc_perm key a t).cons b).trans (List.Perm.swap a b t)

theorem sortOn_perm {α κ : Type} [LinearOrder κ] (key : α → κ) :
    ∀ l : List α, List.Perm (sortOn key l) l
  | [] => by simp [sortOn]
  | a :: t => by
    unfold sortOn
    exact (insertAsc_perm key a (sortOn key t)).trans ((sortOn_perm key t).cons a)

theorem mem_insertAsc {α κ : Type} [LinearOrder κ] {key : α → κ} {a x : α}
    {l : List α} : x ∈ insertAsc key a l ↔ x = a ∨ x ∈ l := by
  rw [(insertAsc_perm key a l).mem_iff, List.mem_cons]

theorem insertAsc_pairwise {α κ : Type} [LinearOrder κ] {key : α → κ} {a : α} :
    ∀ {l : List α}, l.Pairwise (fun x y => key x ≤ key y) →
      (insertAsc key a l).Pairwise (fun x y => key x ≤ key y)
  | [], _ => by simp [insertAsc]
  | b :: t, h => by
    rcases List.pairwise_cons.mp h with ⟨hb, ht⟩
    unfold insertAsc
    by_cases hab : key a ≤ key b
    · rw [if_pos hab]
      refine List.pairwise_cons.mpr ⟨?_, h⟩
      intro x hx
      rcases List.mem_cons.mp hx with rfl | hx
      · exact hab
      · exact hab.trans (hb x hx)
    · rw [if_neg hab]
      refine List.pairwise_cons.mpr ⟨?_, insertAsc_pairwise ht⟩
      intro x hx
      rcases mem_insertAsc.mp hx with rfl | hx
      · exact (not_le.mp hab).le
      · exact hb x hx

theorem sortOn_pairwise {α κ : Type} [LinearOrder κ] (key : α → κ) :
    ∀ l : List α, (sortOn key l).Pairwise (fun x y => key x ≤ key y)
  | [] => by simp [sortOn]
  | a :: t => by
    unfold sortOn
    exact insertAsc_pairwise (sortOn_pairwise key t)

theorem filter_insertAsc_keyEq {α κ : Type} [LinearOrder κ] {key : α → κ}
    (c : κ) (a : α) :
    ∀ {l : List α}, l.Pairwise (fun x y => key x ≤ key y) →
      (insertAsc key a l).filter (fun x => decide (key x = c)) =
        ((a :: l).filter (fun x => decide (key x = c)))
  | [], _ => rfl
  | b :: t, h => by
    unfold insertAsc
    by_cases hab : key a ≤ key b
    · simp [hab]
    · have hba : key b < key a := not_le.mp hab
      have ih := @filter_insertAsc_keyEq α κ _ key c a t h.of_cons
      simp only [if_neg hab]
      by_cases ha : key a = c
      · have hb : ¬ key b = c := fun hb => absurd (ha.trans hb.symm) hba.ne'
        simp [List.filter_cons, ha, hb, ih]
      · by_cases hb : key b = c
        · simp [List.filter_cons, ha, hb, ih]
        · simp [List.filter_cons, ha, hb, ih]

theorem sortOn_filter_keyEq {α κ : Type} [LinearOrder κ] (key : α → κ)
    (c : κ) : ∀ l : List α,
      (sortOn key l).filter (fun x => decide (key x = c)) =
        l.filter (fun x => decide (key x = c))
  | [] => rfl
  | a :: t => by
    unfold sortOn
    rw [filter_insertAsc_keyEq c a (sortOn_pairwise key t)]
    simp only [List.filter_cons]
    rw [sortOn_filter_keyEq key c t]

/-! ### The global summary statistics depend only on the multiset of
latest values -/

theorem foldl_max_mem : ∀ (t : List ℚ) (a : ℚ), t.foldl max a ∈ a :: t
  | [], a => by simp
  | b :: t, a => by
    have h := foldl_max_mem t (max a b)
    rcases List.mem_cons.mp h with h | h
    · rcases max_choice a b with hm | hm <;> rw [List.foldl_cons, h, hm] <;> simp
    · simp [List.foldl_cons, List.mem_cons.mpr (Or.inr (List.mem_cons.mpr (Or.inr h)))]

theorem le_foldl_max : ∀ (t : List ℚ) (a x : ℚ), x ∈ a :: t → x ≤ t.foldl max a
  | [], a, x, hx => by
    rw [List.mem_singleton.mp hx]; simp
  | b :: t, a, x, hx => by
    rw [List.foldl_cons]
    rcases List.mem_cons.mp hx with rfl | hx
    · exact (le_max_left x b).trans (le_foldl_max t (max x b) _ (List.mem_cons_self _ _))
    · rcases List.mem_cons.mp hx with rfl | hx
      · exact (le_max_right a x).trans (le_foldl_max t (max a x) _ (List.mem_cons_self _ _))
      · exact le_foldl_max t (max a b) x (List.mem_cons.mpr (Or.inr hx))

theorem maxList_mem {l : List ℚ} (h : l ≠ []) : maxList l ∈ l := by
  match l with
  | [] => exact absurd rfl h
  | a :: t => exact foldl_max_mem t a

theorem le_maxList {l : List ℚ} {x : ℚ} (hx : x ∈ l) : x ≤ maxList l := by
  match l with
  | [] => exact absurd hx (List.not_mem_nil x)
  | a :: t => exact le_foldl_max t a x hx

theorem maxList_perm {l₁ l₂ : List ℚ} (h : List.Perm l₁ l₂) :
    maxList l₁ = maxList l₂ := by
  rcases eq_or_ne l₁ [] with rfl | h₁
  · rw [h.nil_eq.symm]
  · have h₂ : l₂ ≠ [] := fun h2 => h₁ ((h2 ▸ h).eq_nil)
    exact le_antisymm
      (le_maxList (h.mem_iff.mp (maxList_mem h₁)))
      (le_maxList (h.mem_iff.mpr (maxList_mem h₂)))

theorem foldl_min_mem : ∀ (t : List ℚ) (a : ℚ), t.foldl min a ∈ a :: t
  | [], a => by simp
  | b :: t, a => by
    have h := foldl_min_mem t (min a b)
    rcases List.mem_cons.mp h with h | h
    · rcases min_choice a b with hm | hm <;> rw [List.foldl_cons, h, hm] <;> simp
    · simp [List.foldl_cons, List.mem_cons.mpr (Or.inr (List.mem_cons.mpr (Or.inr h)))]

theorem foldl_min_le : ∀ (t : List ℚ) (a x : ℚ), x ∈ a :: t → t.foldl min a ≤ x
  | [], a, x, hx => by
    rw [List.mem_singleton.mp hx]; simp
  | b :: t, a, x, hx => by
    rw [List.foldl_cons]
    rcases List.mem_cons.mp hx with rfl | hx
    · exact (foldl_min_le t (min x b) _ (List.mem_cons_self _ _)).trans (min_le_left x b)
    · rcases List.mem_cons.mp hx with rfl | hx
      · exact (foldl_min_le t (min a x) _ (List.mem_cons_self _ _)).trans (min_le_right a x)
      · exact foldl_min_le t (min a b) x (List.mem_cons.mpr (Or.inr hx))

theorem minList_mem {l : List ℚ} (h : l ≠ []) : minList l ∈ l := by
  match l with
  | [] => exact absurd rfl h
  | a :: t => exact foldl_min_mem t a

theorem minList_le {l : List ℚ} {x : ℚ} (hx : x ∈ l) : minList l ≤ x := by
  match l with
  | [] => exact absurd hx (List.not_mem_nil x)
  | a :: t => exact foldl_min_le t a x hx

theorem minList_perm {l₁ l₂ : List ℚ} (h : List.Perm l₁ l₂) :
    minList l₁ = minList l₂ := by
  rcases eq_or_ne l₁ [] with rfl | h₁
  · rw [h.nil_eq.symm]
  · have h₂ : l₂ ≠ [] := fun h2 => h₁ ((h2 ▸ h).eq_nil)
    exact le_antisymm
      (minList_le (h.mem_iff.mpr (minList_mem h₂)))
      (minList_le (h.mem_iff.mp (minList_mem h₁)))

theorem meanQ_perm {l₁ l₂ : List ℚ} (h : List.Perm l₁ l₂) :
    meanQ l₁ = meanQ l₂ := by
  unfold meanQ
  rw [h.sum_eq, h.length_eq]

theorem sortOn_id_sorted (l : List ℚ) :
    List.Sorted (· ≤ ·) (sortOn (fun x : ℚ => x) l) :=
  sortOn_pairwise (fun x : ℚ => x) l

theorem sortOn_id_eq_of_perm {l₁ l₂ : List ℚ} (h : List.Perm l₁ l₂) :
    sortOn (fun x : ℚ => x) l₁ = sortOn (fun x : ℚ => x) l₂ :=
  List.eq_of_perm_of_sorted
    (((sortOn_perm _ l₁).trans h).trans (sortOn_perm _ l₂).symm)
    (sortOn_id_sorted l₁) (sortOn_id_sorted l₂)

theorem medianQ_perm {l₁ l₂ : List ℚ} (h : List.Perm l₁ l₂) :
    medianQ l₁ = medianQ l₂ := by
  unfold medianQ
  rw [sortOn_id_eq_of_perm h]

/-! ### Structure of `analyze_climate_data` -/

theorem stdevQ_eq {l : List ℚ} (h : ¬ l.length < 2) :
    stdevQ l = some (sampleStdev l) := by
  rw [stdevQ, if_neg h]; rfl

theorem calculate_volatility_eq_of_two_le {ts : List (ℤ × ℚ)}
    (h2 : 2 ≤ ts.length) (hm : meanQ (valuesOf ts) ≠ 0) :
    calculate_volatility ts =
      some (sampleStdev (valuesOf ts) / ((meanQ (valuesOf ts) : ℚ) : ℝ) * 100) := by
  have hne : ¬ (valuesOf ts = [] ∨ meanQ (valuesOf ts) = 0) := by
    rintro (h | h)
    · have hlen := congrArg List.length h
      rw [valuesOf, List.length_map, List.length_nil] at hlen
      omega
    · exact hm h
  have hl : ¬ (valuesOf ts).length < 2 := by
    rw [valuesOf, List.length_map]; omega
  rw [calculate_volatility]
  simp only [if_neg hne, stdevQ_eq hl]

theorem calculate_volatility_isSome {ts : List (ℤ × ℚ)} (h : 2 ≤ ts.length) :
    (calculate_volatility ts).isSome := by
  by_cases hm : meanQ (valuesOf ts) = 0
  · rw [calculate_volatility]
    simp only [if_pos (Or.inr hm), Option.isSome_some]
  · rw [calculate_volatility_eq_of_two_le h hm]
    rfl

theorem buildSummary_isSome (c : String) {ts : List (ℤ × ℚ)}
    (h : 2 ≤ ts.length) : (buildSummary c ts).isSome := by
  rw [buildSummary]
  obtain ⟨v, hv⟩ := Option.isSome_iff_exists.mp (calculate_volatility_isSome h)
  rw [hv]
  rfl

theorem buildSummary_latest {c : String} {ts : List (ℤ × ℚ)} {s : CountrySummary}
    (h : buildSummary c ts = some s) : s.latest_value = (ts.getLastD (0, 0)).2 := by
  rw [buildSummary] at h
  cases hv : calculate_volatility ts with
  | none => rw [hv] at h; simp at h
  | some v =>
    rw [hv] at h
    simp only [Option.map_some', Option.some_inj] at h
    rw [← h]

theorem collectSummaries_eq : ∀ tsd, collectSummaries tsd = some (summariesOf tsd)
  | [] => rfl
  | (c, ts) :: rest => by
    have ih := collectSummaries_eq rest
    by_cases h : ts.length < 2
    · simp only [collectSummaries, summariesOf, List.filterMap_cons, if_pos h, ih]
    · obtain ⟨s, hs⟩ := Option.isSome_iff_exists.mp (buildSummary_isSome c (not_lt.mp h))
      simp only [collectSummaries, summariesOf, List.filterMap_cons, if_neg h, hs, ih]

theorem analyze_eq (data : IndicatorData) (f : Option String) (n : ℕ) :
    analyze_climate_data data f n = some
      { indicator := data.indicator.getD "Unknown"
        total_countries := (extract_time_series data f).length
        country_analyses :=
          if pyTruthy f then
            ((sortOn rankKey (summariesOf (extract_time_series data f))).filter
              (fun s => f = some s.country)).map (fun s => (s.country, s))
          else
            ((sortOn rankKey (summariesOf (extract_time_series data f))).take n).map
              (fun s => (s.country, s))
        global_summary :=
          if (sortOn rankKey (summariesOf (extract_time_series data f))).map
              (fun s => s.latest_value) = [] then none
          else some
            { max_value := maxList ((sortOn rankKey
                (summariesOf (extract_time_series data f))).map (fun s => s.latest_value))
              min_value := minList ((sortOn rankKey
                (summariesOf (extract_time_series data f))).map (fun s => s.latest_value))
              mean_value := round2Q (meanQ ((sortOn rankKey
                (summariesOf (extract_time_series data f))).map (fun s => s.latest_value)))
              median_value := round2Q (medianQ ((sortOn rankKey
                (summariesOf (extract_time_series data f))).map (fun s => s.latest_value))) } } := by
  rw [analyze_climate_data, collectSummaries_eq]

theorem summariesOf_map_latest : ∀ tsd : List (String × List (ℤ × ℚ)),
    (summariesOf tsd).map (fun s => s.latest_value) =
      tsd.filterMap (fun p =>
        if p.2.length < 2 then none else some ((p.2.getLastD (0, 0)).2))
  | [] => rfl
  | (c, ts) :: rest => by
    have ih := summariesOf_map_latest rest
    by_cases h : ts.length < 2
    · simp only [summariesOf, List.filterMap_cons, if_pos h]
      exact ih
    · obtain ⟨s, hs⟩ := Option.isSome_iff_exists.mp (buildSummary_isSome c (not_lt.mp h))
      simp only [summariesOf, List.filterMap_cons, if_neg h, hs, List.map_cons]
      rw [buildSummary_latest hs]
      exact congrArg (List.cons _) ih

theorem latest_perm (data : IndicatorData) (f : Option String) :
    List.Perm
      ((sortOn rankKey (summariesOf (extract_time_series data f))).map
        (fun s => s.latest_value))
      (latestList data f) := by
  have h := (sortOn_perm rankKey (summariesOf (extract_time_series data f))).map
    (fun s => s.latest_value)
  rw [summariesOf_map_latest] at h
  exact h

theorem global_summary_eq (data : IndicatorData) (f : Option String) (n : ℕ) :
    (analyze_climate_data data f n).map (fun r => r.global_summary) =
      some (if latestList data f = [] then none
        else some
          { max_value := maxList (latestList data f)
            min_value := minList (latestList data f)
            mean_value := round2Q (meanQ (latestList data f))
            median_value := round2Q (medianQ (latestList data f)) }) := by
  rw [analyze_eq]
  simp only [Option.map_some', Option.some_inj]
  by_cases h : latestList data f = []
  · rw [if_pos h, if_pos ((h ▸ latest_perm data f).eq_nil)]
  · have h2 : (sortOn rankKey (summariesOf (extract_time_series data f))).map
        (fun s => s.latest_value) ≠ [] := by
      intro h2
      exact h ((h2 ▸ (latest_perm data f).symm).eq_nil)
    rw [if_neg h, if_neg h2, maxList_perm (latest_perm data f),
      minList_perm (latest_perm data f), meanQ_perm (latest_perm data f),
      medianQ_perm (latest_perm data f)]

/-! ### Growth rate, OLS degeneracy -/

theorem pctChanges_eq : ∀ l : List ℚ,
    pctChanges l = ((l.zip l.tail).filter (fun p => p.1 ≠ 0)).map
      (fun p => (p.2 - p.1) / p.1 * 100)
  | [] => rfl
  | [_] => rfl
  | a :: b :: rest => by
    have ih := pctChanges_eq (b :: rest)
    simp only [pctChanges, List.tail_cons, List.zip_cons_cons, List.filter_cons] at *
    by_cases ha : a = 0
    · simp [ha, ih]
    · simp [ha, ih]

theorem sum_sq_eq_zero_iff {α : Type} (g : α → ℚ) :
    ∀ l : List α, ((l.map (fun a => g a ^ 2)).sum = 0 ↔ ∀ a ∈ l, g a = 0)
  | [] => by simp
  | a :: t => by
    have hnn : 0 ≤ ((t.map (fun a => g a ^ 2)).sum) := by
      apply List.sum_nonneg
      intro x hx
      obtain ⟨b, _, rfl⟩ := List.mem_map.mp hx
      exact sq_nonneg _
    have ih := sum_sq_eq_zero_iff g t
    simp only [List.map_cons, List.sum_cons, List.mem_cons]
    rw [add_eq_zero_iff_of_nonneg (sq_nonneg _) hnn, sq_eq_zero_iff, ih]
    constructor
    · rintro ⟨h1, h2⟩ x (rfl | hx)
      · exact h1
      · exact h2 x hx
    · intro h
      exact ⟨h a (Or.inl rfl), fun x hx => h x (Or.inr hx)⟩

theorem sum_of_all_eq : ∀ (l : List ℚ) (c : ℚ), (∀ x ∈ l, x = c) →
    l.sum = (l.length : ℚ) * c
  | [], _, _ => by simp
  | a :: t, c, h => by
    rw [List.sum_cons, sum_of_all_eq t c (fun x hx => h x (List.mem_cons.mpr (Or.inr hx))),
      h a (List.mem_cons.mpr (Or.inl rfl)), List.length_cons]
    push_cast
    ring

theorem meanQ_of_all_eq {l : List ℚ} {c : ℚ} (hne : l ≠ [])
    (h : ∀ x ∈ l, x = c) : meanQ l = c := by
  have hlen : (l.length : ℚ) ≠ 0 := by
    have h0 : l.length ≠ 0 := fun h0 => hne (List.eq_nil_of_length_eq_zero h0)
    exact_mod_cast h0
  rw [meanQ, sum_of_all_eq l c h, mul_comm, mul_div_assoc, div_self hlen, mul_one]

theorem slopeDen_eq_zero_iff {ts : List (ℤ × ℚ)} (hne : ts ≠ []) :
    slopeDen ts = 0 ↔ ∀ p ∈ ts, ∀ q ∈ ts, p.1 = q.1 := by
  rw [slopeDen]
  rw [sum_sq_eq_zero_iff (fun p : ℤ × ℚ => (p.1 : ℚ) - meanQ (ts.map (fun q => (q.1 : ℚ))))]
  constructor
  · intro h p hp q hq
    have hp' := sub_eq_zero.mp (h p hp)
    have hq' := sub_eq_zero.mp (h q hq)
    exact_mod_cast hp'.trans hq'.symm
  · intro h p hp
    obtain ⟨r, hr⟩ : ∃ r, r ∈ ts := by
      cases ts with
      | nil => exact absurd rfl hne
      | cons a t => exact ⟨a, List.mem_cons_self a t⟩
    have hmean : meanQ (ts.map (fun q => (q.1 : ℚ))) = (r.1 : ℚ) := by
      apply meanQ_of_all_eq
      · intro h0
        exact hne (List.map_eq_nil_iff.mp h0)
      · intro x hx
        obtain ⟨q, hq, rfl⟩ := List.mem_map.mp hx
        exact_mod_cast congrArg (fun z : ℤ => (z : ℚ)) (h q hq r hr)
    rw [hmean, sub_eq_zero]
    exact_mod_cast h p hp r hr

/-! ### Extraction-level lemmas -/

theorem collect_fold_eq (f : Option String) :
    ∀ (records : List DataRecord) (acc : List (String × List (ℤ × ℚ))),
      records.foldl (fun acc r =>
        match processRecord f r with
        | some (c, p) => bucketInsert c p acc
        | none => acc) acc =
      (records.filterMap (processRecord f)).foldl
        (fun acc cp => bucketInsert cp.1 cp.2 acc) acc
  | [], _ => rfl
  | r :: rest, acc => by
    rw [List.foldl_cons, List.filterMap_cons]
    cases hr : processRecord f r with
    | none => exact collect_fold_eq f rest acc
    | some cp =>
      obtain ⟨c, p⟩ := cp
      exact collect_fold_eq f rest (bucketInsert c p acc)

theorem collectSeries_eq_specGroup (f : Option String) (records : List DataRecord) :
    collectSeries f records = specGroup (records.filterMap (processRecord f)) :=
  collect_fold_eq f records []

theorem extract_empty_of_no_usable (data : IndicatorData) (f : Option String)
    (h : data.records.filterMap (processRecord f) = []) :
    extract_time_series data f = [] := by
  rw [extract_time_series, collectSeries_eq_specGroup, h]
  rfl

theorem processRecord_skip_missing (f : Option String) (r : DataRecord)
    (h : r.country = none ∨ r.date = none ∨ r.value = none) :
    processRecord f r = none := by
  obtain ⟨rc, rd, rv⟩ := r
  rcases rc with _ | c <;> rcases rd with _ | d <;> rcases rv with _ | v <;>
    simp_all [processRecord]

theorem processRecord_skip_badPeriod (f : Option String) {r : DataRecord}
    {d : JVal} (hd : r.date = some d) (h : jvalToInt d = none) :
    processRecord f r = none := by
  obtain ⟨rc, rd, rv⟩ := r
  simp only at hd
  subst hd
  rcases rc with _ | c
  · rfl
  · rcases rv with _ | v
    · rfl
    · simp only [processRecord]
      split_ifs <;> try rfl
      rw [h]

theorem processRecord_skip_badValue (f : Option String) {r : DataRecord}
    {v : JVal} (hv : r.value = some v) (h : jvalToFloat v = none) :
    processRecord f r = none := by
  obtain ⟨rc, rd, rv⟩ := r
  simp only at hv
  subst hv
  rcases rc with _ | c
  · rfl
  · rcases rd with _ | d
    · rfl
    · simp only [processRecord]
      split_ifs <;> try rfl
      rw [h]
      cases jvalToInt d <;> rfl

theorem processRecord_filter_eq {g : String} {r : DataRecord} {c : String}
    {y : ℤ} {q : ℚ} (h : processRecord (some g) r = some (c, (y, q))) :
    c = g ∧ r.country = some c := by
  obtain ⟨rc, rd, rv⟩ := r
  rcases rc with _ | c'
  · exact absurd h (by simp [processRecord])
  · rcases rd with _ | d
    · exact absurd h (by simp [processRecord])
    · rcases rv with _ | v
      · exact absurd h (by simp [processRecord])
      · simp only [processRecord] at h
        split_ifs at h with h1 h2
        rcases h2 with h2 | h2
        · exact absurd h2 (by simp)
        · cases hy : jvalToInt d <;> rw [hy] at h
          · exact absurd h (by simp)
          · cases hq : jvalToFloat v <;> rw [hq] at h
            · exact absurd h (by simp)
            · simp only [Option.some_inj, Prod.mk.injEq] at h
              obtain ⟨rfl, -, -⟩ := h
              exact ⟨Option.some_inj.mp h2.symm, rfl⟩

/-! ### Claim theorems -/

/-- Claim C5: for every time series, the growth-rate operation returns 0
if the series has fewer than 2 points; otherwise it returns the
arithmetic mean of `(v[i]-v[i-1])/v[i-1]*100` over exactly those
consecutive pairs whose predecessor value is nonzero, and 0 when no such
pair exists — never dividing by zero.  Stated as: the source's
`calculate_growth_rate` coincides with `specGrowthRate`, the function
written from the spec's wording. -/
theorem claim_C5 (ts : List (ℤ × ℚ)) :
    calculate_growth_rate ts = specGrowthRate ts := by
  simp only [calculate_growth_rate, specGrowthRate, valuesOf, pctChanges_eq]

/-- Claim C3: for every time series, `detect_trend` returns
"insufficient data" below 3 points, "stable" when the period-variance
denominator vanishes, and otherwise classifies the OLS slope against the
threshold `population_stdev(values) * 0.01` exactly as `specTrend`, the
classifier written from the spec's wording. -/
theorem claim_C3 (ts : List (ℤ × ℚ)) : detect_trend ts = specTrend ts := by
  simp only [detect_trend, specTrend, valuesOf, slopeNum, slopeDen,
    List.zip_map', List.map_map, Function.comp_def]

/-- Claim C8: a dataset that is empty or filtered to no usable records is
not an error: the analysis returns a result with `total_countries = 0`,
an empty `country_analyses` mapping and no `global_summary`. -/
theorem claim_C8 (data : IndicatorData) (f : Option String) (n : ℕ)
    (h : extract_time_series data f = []) :
    analyze_climate_data data f n = some
      { indicator := data.indicator.getD "Unknown"
        total_countries := 0
        country_analyses := []
        global_summary := none } := by
  rw [analyze_eq, h]
  simp [summariesOf, sortOn]

/-- Witness for C8 at the concrete empty dataset. -/
theorem claim_C8_witness :
    extract_time_series { indicator := none, records := [] } none = [] ∧
      analyze_climate_data { indicator := none, records := [] } none 10 = some
        { indicator := "Unknown"
          total_countries := 0
          country_analyses := []
          global_summary := none } :=
  ⟨rfl, claim_C8 { indicator := none, records := [] } none 10 rfl⟩

/-- Claim C10: the analysis pipeline invokes the per-series statistics
only on series with at least 2 points — entities with fewer are skipped
beforehand — so the unguarded `statistics.stdev` call inside
`calculate_volatility` (which fails below 2 values) is never reached:
volatility is total on series of length ≥ 2, `collectSummaries` drops
short series before calling any statistic, and a full
`analyze_climate_data` run never propagates the failure. -/
theorem claim_C10 :
    (∀ ts : List (ℤ × ℚ), 2 ≤ ts.length → (calculate_volatility ts).isSome) ∧
    (∀ (c : String) (ts : List (ℤ × ℚ)) (rest : List (String × List (ℤ × ℚ))),
      ts.length < 2 → collectSummaries ((c, ts) :: rest) = collectSummaries rest) ∧
    (∀ (data : IndicatorData) (f : Option String) (n : ℕ),
      (analyze_climate_data data f n).isSome) := by
  refine ⟨fun ts h => calculate_volatility_isSome h, ?_, ?_⟩
  · intro c ts rest h
    simp only [collectSummaries, if_pos h]
  · intro data f n
    rw [analyze_eq]
    rfl

/-- Witness for C10 at a concrete two-point series. -/
theorem claim_C10_witness :
    2 ≤ ([((1 : ℤ), (1 : ℚ)), (2, 2)]).length ∧
      (calculate_volatility [((1 : ℤ), (1 : ℚ)), (2, 2)]).isSome :=
  ⟨by decide, claim_C10.1 _ (by decide)⟩

/-- Counterexample to claim C1 as stated: on the one-point series
`[(2020, 5)]` the volatility operation does not return 0.0 — there is no
single-value guard, so `statistics.stdev` raises (`none`). -/
theorem claim_C1_cex :
    calculate_volatility [((2020 : ℤ), (5 : ℚ))] = none ∧
      calculate_volatility [((2020 : ℤ), (5 : ℚ))] ≠ some 0 := by
  have hc : ¬ (valuesOf [((2020 : ℤ), (5 : ℚ))] = [] ∨
      meanQ (valuesOf [((2020 : ℤ), (5 : ℚ))]) = 0) := by
    norm_num [valuesOf, meanQ]
  have hl : (valuesOf [((2020 : ℤ), (5 : ℚ))]).length < 2 := by
    simp [valuesOf]
  have h : calculate_volatility [((2020 : ℤ), (5 : ℚ))] = none := by
    simp only [calculate_volatility, if_neg hc, stdevQ, if_pos hl]
  exact ⟨h, by rw [h]; exact fun hx => Option.noConfusion hx⟩

/-- Claim C1 (amended): volatility returns 0.0 for an empty series or a
zero mean; for a one-point series with nonzero value it fails with
`StatisticsError` (there is no single-value guard); and for ≥2 points
with nonzero mean it returns `sample_stdev(values)/mean(values)*100`. -/
theorem claim_C1 (ts : List (ℤ × ℚ)) :
    (valuesOf ts = [] ∨ meanQ (valuesOf ts) = 0 →
      calculate_volatility ts = some 0) ∧
    ((valuesOf ts).length = 1 → meanQ (valuesOf ts) ≠ 0 →
      calculate_volatility ts = none) ∧
    (2 ≤ (valuesOf ts).length → meanQ (valuesOf ts) ≠ 0 →
      calculate_volatility ts =
        some (sampleStdev (valuesOf ts) / ((meanQ (valuesOf ts) : ℚ) : ℝ) * 100)) := by
  refine ⟨?_, ?_, ?_⟩
  · intro h
    simp only [calculate_volatility, if_pos h]
  · intro h1 hm
    have hne : ¬ (valuesOf ts = [] ∨ meanQ (valuesOf ts) = 0) := by
      rintro (he | he)
      · rw [he] at h1
        simp at h1
      · exact hm he
    simp only [calculate_volatility, if_neg hne, stdevQ, if_pos (by omega :
      (valuesOf ts).length < 2)]
  · intro h2 hm
    have h2' : 2 ≤ ts.length := by
      rw [valuesOf, List.length_map] at h2
      exact h2
    exact calculate_volatility_eq_of_two_le h2' hm

/-- Witness for C1 (amended) at a concrete two-point series. -/
theorem claim_C1_witness :
    2 ≤ (valuesOf [((1 : ℤ), (1 : ℚ)), (2, 3)]).length ∧
      meanQ (valuesOf [((1 : ℤ), (1 : ℚ)), (2, 3)]) ≠ 0 ∧
      calculate_volatility [((1 : ℤ), (1 : ℚ)), (2, 3)] =
        some (sampleStdev (valuesOf [((1 : ℤ), (1 : ℚ)), (2, 3)]) /
          ((meanQ (valuesOf [((1 : ℤ), (1 : ℚ)), (2, 3)]) : ℚ) : ℝ) * 100) :=
  ⟨by decide, by norm_num [valuesOf, meanQ], (claim_C1 _).2.2 (by decide)
    (by norm_num [valuesOf, meanQ])⟩

/-- Claim C4: with ≥2 points and two distinct periods, the forecast at
horizon `h` is exactly `h` points at periods `last+1 … last+h` on the
OLS line `slope·period + intercept` with `slope = Σ(x-x̄)(y-ȳ)/Σ(x-x̄)²`
and `intercept = ȳ - slope·x̄`; with fewer than 2 points or all periods
equal it is empty. -/
theorem claim_C4 (ts : List (ℤ × ℚ)) (h : ℕ) :
    (2 ≤ ts.length → (∃ p ∈ ts, ∃ q ∈ ts, p.1 ≠ q.1) →
      simple_forecast ts h = (List.range h).map (fun (i : ℕ) =>
        (lastPeriod ts + (i : ℤ) + 1,
          slopeNum ts / slopeDen ts * ((lastPeriod ts + (i : ℤ) + 1 : ℤ) : ℚ) +
            (meanQ (valuesOf ts) -
              slopeNum ts / slopeDen ts * meanQ (ts.map (fun q => (q.1 : ℚ)))))) ∧
      (simple_forecast ts h).length = h) ∧
    (ts.length < 2 ∨ (∀ p ∈ ts, ∀ q ∈ ts, p.1 = q.1) →
      simple_forecast ts h = []) := by
  constructor
  · intro h2 hex
    have hne : ts ≠ [] := by
      intro h0
      rw [h0] at h2
      simp at h2
    have hden : slopeDen ts ≠ 0 := by
      intro h0
      obtain ⟨p, hp, q, hq, hpq⟩ := hex
      exact hpq ((slopeDen_eq_zero_iff hne).mp h0 p hp q hq)
    have hlt : ¬ ts.length < 2 := by omega
    have heq : simple_forecast ts h = (List.range h).map (fun (i : ℕ) =>
        (lastPeriod ts + (i : ℤ) + 1,
          slopeNum ts / slopeDen ts * ((lastPeriod ts + (i : ℤ) + 1 : ℤ) : ℚ) +
            (meanQ (valuesOf ts) -
              slopeNum ts / slopeDen ts * meanQ (ts.map (fun q => (q.1 : ℚ)))))) := by
      simp only [simple_forecast, if_neg hlt, if_neg hden]
    refine ⟨heq, ?_⟩
    rw [heq, List.length_map, List.length_range]
  · rintro (h2 | hall)
    · simp only [simple_forecast, if_pos h2]
    · by_cases h2 : ts.length < 2
      · simp only [simple_forecast, if_pos h2]
      · have hne : ts ≠ [] := by
          intro h0
          rw [h0] at h2
          simp at h2
        have hden : slopeDen ts = 0 := (slopeDen_eq_zero_iff hne).mpr hall
        simp only [simple_forecast, if_neg h2, if_pos hden]

/-- Witness for C4 at the spec's example series with horizon 2. -/
theorem claim_C4_witness :
    2 ≤ ([((2018 : ℤ), (100 : ℚ)), (2019, 110), (2020, 121)]).length ∧
      (∃ p ∈ [((2018 : ℤ), (100 : ℚ)), (2019, 110), (2020, 121)],
        ∃ q ∈ [((2018 : ℤ), (100 : ℚ)), (2019, 110), (2020, 121)], p.1 ≠ q.1) ∧
      simple_forecast [((2018 : ℤ), (100 : ℚ)), (2019, 110), (2020, 121)] 2 =
        (List.range 2).map (fun (i : ℕ) =>
          (lastPeriod [((2018 : ℤ), (100 : ℚ)), (2019, 110), (2020, 121)] + (i : ℤ) + 1,
            slopeNum [((2018 : ℤ), (100 : ℚ)), (2019, 110), (2020, 121)] /
                slopeDen [((2018 : ℤ), (100 : ℚ)), (2019, 110), (2020, 121)] *
                ((lastPeriod [((2018 : ℤ), (100 : ℚ)), (2019, 110), (2020, 121)] +
                  (i : ℤ) + 1 : ℤ) : ℚ) +
              (meanQ (valuesOf [((2018 : ℤ), (100 : ℚ)), (2019, 110), (2020, 121)]) -
                slopeNum [((2018 : ℤ), (100 : ℚ)), (2019, 110), (2020, 121)] /
                  slopeDen [((2018 : ℤ), (100 : ℚ)), (2019, 110), (2020, 121)] *
                  meanQ ([((2018 : ℤ), (100 : ℚ)), (2019, 110), (2020, 121)].map
                    (fun q => (q.1 : ℚ)))))) :=
  ⟨by decide, by decide,
    ((claim_C4 [((2018 : ℤ), (100 : ℚ)), (2019, 110), (2020, 121)] 2).1
      (by decide) (by decide)).1⟩

/-- Counterexample to claim C2 as stated: on `cexData` the three
qualifying entities have latest values 1, 1, 0 with arithmetic mean 2/3,
but the stored `mean_value` is `round(2/3, 2) = 0.67 ≠ 2/3`. -/
theorem claim_C2_cex :
    (analyze_climate_data cexData none 10).map (fun r => r.global_summary) =
      some (some
        { max_value := 1, min_value := 0, mean_value := 67 / 100, median_value := 1 }) ∧
    meanQ (latestList cexData none) = 2 / 3 ∧
    (67 : ℚ) / 100 ≠ 2 / 3 := by
  have hL : latestList cexData none = [1, 1, 0] := by
    norm_num [latestList, cexData, extract_time_series, collectSeries, processRecord,
      jvalToInt, jvalToFloat, jvalTruthy, bucketInsert, sortOn, insertAsc,
      List.getLastD, List.foldl_cons, List.filterMap_cons]
    decide
  refine ⟨?_, ?_, by norm_num⟩
  · rw [global_summary_eq, hL,
      if_neg (by simp : ¬([1, 1, 0] : List ℚ) = [])]
    norm_num [maxList, minList, meanQ, medianQ, round2Q, rheQ, sortOn, insertAsc,
      List.getD]
  · rw [hL]
    norm_num [meanQ]

/-- Claim C2 (amended): whenever some entity has ≥2 usable points, the
global summary holds the maximum and minimum of the latest values of all
such entities (regardless of `top_n` truncation), together with their
arithmetic mean and median each rounded to two decimals (half-to-even);
it is absent when no such entity exists. -/
theorem claim_C2 (data : IndicatorData) (f : Option String) (n : ℕ) :
    (latestList data f ≠ [] →
      (analyze_climate_data data f n).map (fun r => r.global_summary) =
        some (some
          { max_value := maxList (latestList data f)
            min_value := minList (latestList data f)
            mean_value := round2Q (meanQ (latestList data f))
            median_value := round2Q (medianQ (latestList data f)) })) ∧
    (latestList data f = [] →
      (analyze_climate_data data f n).map (fun r => r.global_summary) = some none) := by
  constructor
  · intro h
    rw [global_summary_eq, if_neg h]
  · intro h
    rw [global_summary_eq, if_pos h]

/-- Witness for C2 (amended) on `cexData`. -/
theorem claim_C2_witness :
    latestList cexData none ≠ [] ∧
      (analyze_climate_data cexData none 10).map (fun r => r.global_summary) =
        some (some
          { max_value := maxList (latestList cexData none)
            min_value := minList (latestList cexData none)
            mean_value := round2Q (meanQ (latestList cexData none))
            median_value := round2Q (medianQ (latestList cexData none)) }) := by
  have hL : latestList cexData none = [1, 1, 0] := by
    norm_num [latestList, cexData, extract_time_series, collectSeries, processRecord,
      jvalToInt, jvalToFloat, jvalTruthy, bucketInsert, sortOn, insertAsc,
      List.getLastD, List.foldl_cons, List.filterMap_cons]
    decide
  have hne : latestList cexData none ≠ [] := by
    rw [hL]
    exact fun hx => List.noConfusion hx
  exact ⟨hne, (claim_C2 cexData none 10).1 hne⟩

/-- Claim C6: without an entity filter, `country_analyses` is exactly the
first `top_n` summaries after the stable descending sort by absolute
latest value; the sort is descending on `|latest_value|`, ties keep the
extraction-pass first-seen order, and on entities A(-50), B(40), C(30)
with `top_n = 2` the selection is A then B. -/
theorem claim_C6 :
    (∀ (data : IndicatorData) (n : ℕ),
      (analyze_climate_data data none n).map (fun r => r.country_analyses) =
        some (((sortOn rankKey (summariesOf (extract_time_series data none))).take n).map
          (fun s => (s.country, s)))) ∧
    (∀ l : List CountrySummary,
      (sortOn rankKey l).Pairwise (fun a b => |b.latest_value| ≤ |a.latest_value|)) ∧
    (∀ (l : List CountrySummary) (k : ℚ),
      (sortOn rankKey l).filter (fun s => decide (|s.latest_value| = k)) =
        l.filter (fun s => decide (|s.latest_value| = k))) ∧
    (∀ sA sB sC : CountrySummary, sA.latest_value = -50 → sB.latest_value = 40 →
      sC.latest_value = 30 →
      ((sortOn rankKey [sA, sB, sC]).take 2).map (fun s => s.country) =
        [sA.country, sB.country]) := by
  refine ⟨?_, ?_, ?_, ?_⟩
  · intro data n
    rw [analyze_eq]
    simp [pyTruthy]
  · intro l
    exact (sortOn_pairwise rankKey l).imp (fun h => neg_le_neg_iff.mp h)
  · intro l k
    have hfun : (fun s : CountrySummary => decide (rankKey s = -k)) =
        (fun s => decide (|s.latest_value| = k)) := by
      funext s
      simp [rankKey, neg_inj]
    have h := sortOn_filter_keyEq rankKey (-k) l
    rwa [hfun] at h
  · intro sA sB sC hA hB hC
    norm_num [sortOn, insertAsc, rankKey, hA, hB, hC]

/-- Witness for C6's ranking example at concrete summaries. -/
theorem claim_C6_witness :
    ((sortOn rankKey
      [{ country := "A", data_points := 2, time_range := "1-2", latest_value := -50,
         earliest_value := 0, trend := "insufficient data", avg_growth_rate := 0,
         volatility := 0, forecast_5yr := [] },
       { country := "B", data_points := 2, time_range := "1-2", latest_value := 40,
         earliest_value := 0, trend := "insufficient data", avg_growth_rate := 0,
         volatility := 0, forecast_5yr := [] },
       { country := "C", data_points := 2, time_range := "1-2", latest_value := 30,
         earliest_value := 0, trend := "insufficient data", avg_growth_rate := 0,
         volatility := 0, forecast_5yr := [] }]).take 2).map (fun s => s.country) =
      ["A", "B"] :=
  claim_C6.2.2.2 _ _ _ rfl rfl rfl

/-- Claim C7: extraction skips (silently) every record with a missing
entity name, period or value, or whose period fails integer parsing or
value fails numeric coercion; with a filter, only matching records are
retained; each entity's bucket is sorted ascending by period by a stable
sort (ties keep original relative order); and no usable records yield an
empty mapping, not an error. -/
theorem claim_C7 :
    (∀ (data : IndicatorData) (f : Option String),
      extract_time_series data f =
        (specGroup (data.records.filterMap (processRecord f))).map
          (fun p => (p.1, sortOn Prod.fst p.2))) ∧
    (∀ (f : Option String) (r : DataRecord),
      r.country = none ∨ r.date = none ∨ r.value = none →
        processRecord f r = none) ∧
    (∀ (f : Option String) (r : DataRecord) (d : JVal),
      r.date = some d → jvalToInt d = none → processRecord f r = none) ∧
    (∀ (f : Option String) (r : DataRecord) (v : JVal),
      r.value = some v → jvalToFloat v = none → processRecord f r = none) ∧
    (∀ (g : String) (r : DataRecord) (c : String) (y : ℤ) (q : ℚ),
      processRecord (some g) r = some (c, (y, q)) → c = g) ∧
    (∀ (data : IndicatorData) (f : Option String) (c : String)
        (l : List (ℤ × ℚ)), (c, l) ∈ extract_time_series data f →
      l.Pairwise (fun a b : ℤ × ℚ => a.1 ≤ b.1)) ∧
    (∀ (l : List (ℤ × ℚ)) (pd : ℤ),
      (sortOn Prod.fst l).filter (fun pr => decide (pr.1 = pd)) =
        l.filter (fun pr => decide (pr.1 = pd))) ∧
    (∀ (data : IndicatorData) (f : Option String),
      data.records.filterMap (processRecord f) = [] →
        extract_time_series data f = []) := by
  refine ⟨?_, ?_, ?_, ?_, ?_, ?_, ?_, ?_⟩
  · intro data f
    rw [extract_time_series, collectSeries_eq_specGroup]
  · intro f r h
    exact processRecord_skip_missing f r h
  · intro f r d hd h
    exact processRecord_skip_badPeriod f hd h
  · intro f r v hv h
    exact processRecord_skip_badValue f hv h
  · intro g r c y q h
    exact (processRecord_filter_eq h).1
  · intro data f c l hm
    rw [extract_time_series] at hm
    obtain ⟨p, hp, heq⟩ := List.mem_map.mp hm
    cases heq
    exact sortOn_pairwise Prod.fst p.2
  · intro l pd
    exact sortOn_filter_keyEq Prod.fst pd l
  · intro data f h
    exact extract_empty_of_no_usable data f h

/-- Witness for C7's skip and empty-mapping components at a concrete
dataset whose only record lacks an entity name. -/
theorem claim_C7_witness :
    processRecord none ⟨none, some (.jint 2020), some (.jint 1)⟩ = none ∧
      (IndicatorData.mk none [⟨none, some (.jint 2020), some (.jint 1)⟩]).records.filterMap
        (processRecord none) = [] ∧
      extract_time_series
        (IndicatorData.mk none [⟨none, some (.jint 2020), some (.jint 1)⟩]) none = [] :=
  ⟨claim_C7.2.1 none _ (Or.inl rfl), by decide,
    claim_C7.2.2.2.2.2.2.2 _ none (by decide)⟩

/-- Claim C9: at the extraction interface a record whose value is exactly
0 is retained (the check is `is not None`), while a record whose entity
name is the empty string, or whose period is the empty string or the
number 0, is dropped, because entity name and period are tested for
truthiness. -/
theorem claim_C9 :
    (∀ (c : String) (d : JVal) (y : ℤ), c ≠ "" → jvalTruthy d = true →
      jvalToInt d = some y →
      processRecord none ⟨some c, some d, some (.jint 0)⟩ = some (c, (y, 0)) ∧
      extract_time_series
          (IndicatorData.mk none [⟨some c, some d, some (.jint 0)⟩]) none =
        [(c, [(y, 0)])]) ∧
    (∀ (f : Option String) (d : Option JVal) (v : Option JVal),
      processRecord f { country := some "", date := d, value := v } = none) ∧
    (∀ (f : Option String) (c : Option String) (v : Option JVal),
      processRecord f { country := c, date := some (.jstr ""), value := v } = none) ∧
    (∀ (f : Option String) (c : Option String) (v : Option JVal),
      processRecord f { country := c, date := some (.jint 0), value := v } = none) := by
  refine ⟨?_, ?_, ?_, ?_⟩
  · intro c d y hc hd hy
    have hp : processRecord none ⟨some c, some d, some (.jint 0)⟩ =
        some (c, (y, 0)) := by
      simp only [processRecord]
      rw [if_pos (show ¬c = "" ∧ jvalTruthy d = true from ⟨hc, hd⟩)]
      rw [if_pos (show True ∨ (none : Option String) = some c from Or.inl trivial), hy]
      simp only [jvalToFloat, Int.cast_zero]
    refine ⟨hp, ?_⟩
    simp [extract_time_series, collectSeries, hp, bucketInsert, sortOn, insertAsc]
  · intro f d v
    rcases d with _ | d <;> rcases v with _ | v <;> simp [processRecord]
  · intro f c v
    rcases c with _ | c <;> rcases v with _ | v <;> simp [processRecord, jvalTruthy]
  · intro f c v
    rcases c with _ | c <;> rcases v with _ | v <;> simp [processRecord, jvalTruthy]

/-- Witness for C9's retained-zero component at a concrete record. -/
theorem claim_C9_witness :
    ("France" : String) ≠ "" ∧ jvalTruthy (.jint 2020) = true ∧
      jvalToInt (.jint 2020) = some 2020 ∧
      processRecord none ⟨some "France", some (.jint 2020), some (.jint 0)⟩ =
        some ("France", ((2020 : ℤ), (0 : ℚ))) ∧
      extract_time_series
          (IndicatorData.mk none [⟨some "France", some (.jint 2020), some (.jint 0)⟩])
          none =
        [("France", [((2020 : ℤ), (0 : ℚ))])] := by
  have h := claim_C9.1 "France" (.jint 2020) 2020 (by decide) (by decide) (by decide)
  exact ⟨by decide, by decide, by decide, h.1, h.2⟩

end ClimateAnalyzer
